import Mathlib

/-
Shallow embedding of the AI-RPG-Game turn engine.

Sources embedded here:
  * the character / turn data model (src/types.ts, extended by the stat axes
    and NPC records used by the main application file),
  * the state reconciler: the `setGameState` updater inside
    `generateAndProcessAIResponse` (main application file, lines 501-675),
  * the dice / XP progression updater inside `handleChoiceClick`
    (lines 353-387) and the heroic-action guard `handleCustomChoiceSubmit`
    (lines 394-415) with `isHeroicBlocked` (lines 230-232),
  * the request-id fencing of the turn lifecycle controller
    (`generateAndProcessAIResponse` lines 438-480, `handleStopRequest`
    lines 423-427),
  * the max-HP recomputation effect (lines 215-228) and the derived-stat
    calculator `calculateStats` (lines 166-194),
  * the delimited-text normalizer `parseTextResponse`
    (src/services/gemini.ts, lines 465-611).

JavaScript numbers are modelled as `Int` (all arithmetic in the embedded
code stays integral except the HP-ratio rescale, which is modelled exactly
as a rational rounding, see `jsRound`).  Random identifier generation
(`Math.random().toString(36)...`) is modelled by injected identifier
supplies, as the spec demands ("ids should be injectable/mockable").
-/

inductive StatType
  | STR | DEX | CON | INT | CHA | PER | LUK
deriving DecidableEq, Repr

/-- Total seven-axis stat record; used both for `CharacterStats` and for the
`statExperience` counters (both are `Record<StatType, number>` in the source). -/
structure StatMap where
  STR : Int
  DEX : Int
  CON : Int
  INT : Int
  CHA : Int
  PER : Int
  LUK : Int
deriving DecidableEq, Repr

def StatMap.get (m : StatMap) : StatType → Int
  | .STR => m.STR
  | .DEX => m.DEX
  | .CON => m.CON
  | .INT => m.INT
  | .CHA => m.CHA
  | .PER => m.PER
  | .LUK => m.LUK

def StatMap.set (m : StatMap) : StatType → Int → StatMap
  | .STR, v => { m with STR := v }
  | .DEX, v => { m with DEX := v }
  | .CON, v => { m with CON := v }
  | .INT, v => { m with INT := v }
  | .CHA, v => { m with CHA := v }
  | .PER, v => { m with PER := v }
  | .LUK, v => { m with LUK := v }

def StatMap.add (m b : StatMap) : StatMap :=
  ⟨m.STR + b.STR, m.DEX + b.DEX, m.CON + b.CON, m.INT + b.INT,
   m.CHA + b.CHA, m.PER + b.PER, m.LUK + b.LUK⟩

def zeroStats : StatMap := ⟨0, 0, 0, 0, 0, 0, 0⟩

/-- DEFAULT_STATS from the source (all axes 10). -/
def DEFAULT_STATS : StatMap := ⟨10, 10, 10, 10, 10, 10, 10⟩

def BASE_HP : Int := 100

def EXP_THRESHOLD : Int := 3

inductive ItemType
  | weapon | armor | accessory | misc
deriving DecidableEq, Repr

structure InventoryItem where
  id : Nat
  name : String
  type : ItemType
  description : Option String
  bonuses : Option StatMap
deriving DecidableEq, Repr

structure EquippedGear where
  weapon : Option InventoryItem
  armor : Option InventoryItem
  accessory : Option InventoryItem
deriving DecidableEq, Repr

/-- Status effect; `type` is kept as a raw string ('buff'/'debuff') because the
text parser casts arbitrary strings into it. -/
structure StatusEffect where
  id : Nat
  name : String
  description : String
  type : String
  duration : Int
  statModifiers : Option StatMap
  blocksHeroicActions : Bool
deriving DecidableEq, Repr

structure NPC where
  id : Nat
  name : String
  type : String
  condition : String
deriving DecidableEq, Repr

inductive GameStatus
  | ongoing | won | lost
deriving DecidableEq, Repr

inductive GamePhase
  | menu | setup_genre | setup_stats | creating_world | playing | game_over
deriving DecidableEq, Repr

structure RollResult where
  total : Int
  base : Int
  modifier : Int
  isSuccess : Bool
  statType : StatType
  difficulty : Int
deriving DecidableEq, Repr

structure LevelUpEvent where
  stat : StatType
  oldValue : Int
  newValue : Int
deriving DecidableEq, Repr

structure ChoiceData where
  text : String
  type : Option StatType
  difficulty : Option Int
deriving DecidableEq, Repr

structure NPCAdd where
  name : String
  type : String
  condition : String
deriving DecidableEq, Repr

structure NPCUpdate where
  name : String
  condition : String
  status : Option String
deriving DecidableEq, Repr

structure NPCsUpdate where
  add : List NPCAdd
  update : List NPCUpdate
  remove : List String
deriving DecidableEq, Repr

structure ActionResult where
  stat : StatType
  difficulty : Int
  base_roll : Int
  total : Int
  is_success : Bool
deriving DecidableEq, Repr

structure AIItem where
  name : String
  type : Option ItemType
  description : Option String
  bonuses : Option StatMap
deriving DecidableEq, Repr

structure StoryTurn where
  id : String
  text : String
  choices : List ChoiceData
  isUserTurn : Bool
  rollResult : Option RollResult
  levelUpEvent : Option LevelUpEvent
  statsUpdated : Option (List (StatType × Int))
  inventoryAdded : List InventoryItem
  inventoryRemoved : List String
  newEffects : Option (List StatusEffect)
  npcUpdates : List NPCAdd
deriving DecidableEq, Repr

/-- Canonical normalized AI output consumed by the reconciler (AIStoryResponse
in the source); optional wire fields are `Option`s, array fields that the
reconciler immediately defaults with `|| []` are plain lists. -/
structure AIStoryResponse where
  narrative : String
  choices : List ChoiceData
  inventory_added : List AIItem
  inventory_removed : List String
  quest_update : Option String
  hp_change : Option Int
  game_status : Option GameStatus
  stats_update : Option (List (StatType × Int))
  new_effects : List StatusEffect
  npcs_update : Option NPCsUpdate
  action_result : Option ActionResult
deriving DecidableEq, Repr

structure GameState where
  inventory : List InventoryItem
  equipped : EquippedGear
  currentQuest : String
  npcs : List NPC
  history : List StoryTurn
  isLoading : Bool
  isRolling : Bool
  hp : Int
  maxHp : Int
  hpHistory : List Int
  gameStatus : GameStatus
  phase : GamePhase
  genre : String
  stats : StatMap
  statExperience : StatMap
  activeEffects : List StatusEffect
  startingStats : StatMap
  customChoicesRemaining : Int
deriving DecidableEq, Repr

/-- The initial game state from the `useState` initializer of the app. -/
def initialGameState : GameState :=
  { inventory := []
    equipped := ⟨none, none, none⟩
    currentQuest := ""
    npcs := []
    history := []
    isLoading := false
    isRolling := false
    hp := BASE_HP
    maxHp := BASE_HP
    hpHistory := [BASE_HP]
    gameStatus := GameStatus.ongoing
    phase := GamePhase.menu
    genre := "Fantasy"
    stats := DEFAULT_STATS
    statExperience := zeroStats
    activeEffects := []
    startingStats := DEFAULT_STATS
    customChoicesRemaining := 3 }

/-- JavaScript `a || b` on an optional string: the empty string is falsy. -/
def jsOrString (a : Option String) (b : String) : String :=
  match a with
  | some s => if s = "" then b else s
  | none => b

/-- ASCII `toLowerCase`, as a kernel-reducible character map. -/
def lowerChar (c : Char) : Char :=
  if 'A' ≤ c && c ≤ 'Z' then Char.ofNat (c.toNat + 32) else c

/-- ASCII `toUpperCase`. -/
def upperChar (c : Char) : Char :=
  if 'a' ≤ c && c ≤ 'z' then Char.ofNat (c.toNat - 32) else c

def lowerString (s : String) : String := String.mk (s.data.map lowerChar)

def upperString (s : String) : String := String.mk (s.data.map upperChar)

/-- getMod from the source: `Math.floor((score - 10) / 2)`; `Int.fdiv` is
floor division, matching `Math.floor` of the real quotient. -/
def getMod (score : Int) : Int := Int.fdiv (score - 10) 2

/-- JavaScript `Math.round (num / den)` for `den > 0`:
`Math.round x = ⌊x + 1/2⌋` (ties toward positive infinity), and
`⌊num/den + 1/2⌋ = (2*num + den).fdiv (2*den)`. -/
def jsRound (num den : Int) : Int := Int.fdiv (2 * num + den) (2 * den)

inductive GearSlot
  | weapon | armor | accessory
deriving DecidableEq, Repr

/-- Ternary slot selection `item.type === 'weapon' ? 'weapon' : ... : null`
used both by calculateStats (skipSlot) and the equip handlers. -/
def slotForItem : ItemType → Option GearSlot
  | .weapon => some GearSlot.weapon
  | .armor => some GearSlot.armor
  | .accessory => some GearSlot.accessory
  | .misc => none

/-- applyBonus closure inside calculateStats; the source adds each axis only
when the bonus is truthy (nonzero), which equals unconditional pointwise
addition, and skips an absent bonus record. -/
def applyBonus (calculated : StatMap) (bonuses : Option StatMap) : StatMap :=
  match bonuses with
  | none => calculated
  | some b => StatMap.add calculated b

/-- calculateStats from the app (lines 166-194): base stats plus equipped
bonuses (skipping the slot that a previewed `extraItem` would occupy) plus
the previewed item's bonuses plus every active effect's statModifiers. -/
def calculateStats (baseStats : StatMap) (equipped : EquippedGear)
    (activeEffects : List StatusEffect) (extraItem : Option InventoryItem) : StatMap :=
  let skipSlot : Option GearSlot :=
    match extraItem with
    | some it => slotForItem it.type
    | none => none
  let c1 := if skipSlot ≠ some GearSlot.weapon then
      applyBonus baseStats (equipped.weapon.bind (fun w => w.bonuses)) else baseStats
  let c2 := if skipSlot ≠ some GearSlot.armor then
      applyBonus c1 (equipped.armor.bind (fun a => a.bonuses)) else c1
  let c3 := if skipSlot ≠ some GearSlot.accessory then
      applyBonus c2 (equipped.accessory.bind (fun a => a.bonuses)) else c2
  let c4 := match extraItem with
    | some it => applyBonus c3 it.bonuses
    | none => c3
  activeEffects.foldl (fun acc e => applyBonus acc e.statModifiers) c4

/-- The max-HP recomputation `useEffect` (lines 215-228): when the effective
CON changes the derived maximum, rescale current HP by the preserved ratio
`hp / maxHp` and round (`Math.round(newMax * ratio)`).  Returns the new
`(hp, maxHp)` pair. -/
def recomputeMaxHpEffect (conVal hp maxHp : Int) : Int × Int :=
  let conMod := getMod conVal
  let newMax := BASE_HP + conMod * 10
  if maxHp ≠ newMax then
    (jsRound (newMax * hp) maxHp, newMax)
  else
    (hp, maxHp)

/-- isHeroicBlocked (lines 230-232). -/
def isHeroicBlocked (s : GameState) : Bool :=
  s.activeEffects.any (fun e => e.blocksHeroicActions)

/-- The dice-roll XP updater inside handleChoiceClick (lines 356-381): on a
successful check the axis experience is incremented; on reaching
EXP_THRESHOLD it resets to 0 and the base stat gains one point, emitting a
LevelUpEvent.  Also flips `isRolling` like the source.  Returns the new state
and the emitted event. -/
def applyRollXP (prev : GameState) (statType : StatType) (isSuccess : Bool) :
    GameState × Option LevelUpEvent :=
  let newState := { prev with isRolling := true }
  if isSuccess then
    let currentExp := prev.statExperience.get statType
    let nextExp := currentExp + 1
    if nextExp ≥ EXP_THRESHOLD then
      let oldValue := prev.stats.get statType
      let newValue := oldValue + 1
      ({ newState with
           statExperience := prev.statExperience.set statType 0
           stats := prev.stats.set statType newValue },
       some ⟨statType, oldValue, newValue⟩)
    else
      ({ newState with statExperience := prev.statExperience.set statType nextExp }, none)
  else
    (newState, none)

structure CustomAction where
  text : String
  item : String
  roll : Int
deriving DecidableEq, Repr

/-- handleCustomChoiceSubmit (lines 394-415): guarded by the heroic-action
budget and by blocking status effects; when allowed, resolves the referenced
item name, decrements the budget and issues the custom-action payload (the
subsequent `processTurn` call is represented by the returned payload).  The
die roll is injected. -/
def handleCustomChoiceSubmit (prev : GameState) (text : String)
    (itemId : Option Nat) (roll : Int) : GameState × Option CustomAction :=
  if prev.customChoicesRemaining ≤ 0 then (prev, none)
  else if isHeroicBlocked prev then (prev, none)
  else
    let allItems := prev.inventory
      ++ (match prev.equipped.weapon with | some w => [w] | none => [])
      ++ (match prev.equipped.armor with | some a => [a] | none => [])
      ++ (match prev.equipped.accessory with | some a => [a] | none => [])
    let itemName := match itemId with
      | some iid =>
        match allItems.find? (fun i => i.id = iid) with
        | some found => found.name
        | none => "None"
      | none => "None"
    ({ prev with customChoicesRemaining := prev.customChoicesRemaining - 1 },
     some ⟨text, itemName, roll⟩)

/-- Item materialization in the reconciler (lines 502-508): the external
classifier (`createItemFromString`, treated by the spec as an injected pure
collaborator) builds the item, whose description the AI delta may override
(`aiItem.description || factoryItem.description`, empty string falsy). -/
def mkItemFromAI (factory : String → InventoryItem) (aiItem : AIItem) : InventoryItem :=
  let factoryItem := factory aiItem.name
  { factoryItem with
      description := match aiItem.description with
        | some d => if d = "" then factoryItem.description else some d
        | none => factoryItem.description }

/-- `[weapon?.id, armor?.id, accessory?.id].filter(Boolean)` (lines 528-532);
generated ids are nonempty random strings, so `filter(Boolean)` only drops
the absent slots. -/
def equippedIdList (g : EquippedGear) : List Nat :=
  [g.weapon, g.armor, g.accessory].filterMap (fun o => o.map (fun i => i.id))

/-- NPC patching (lines 601-610): `findIndex` by case-insensitive name plus
index assignment updates only the first matching NPC; an absent match is a
no-op; a falsy (absent or empty) `status` keeps the old type. -/
def updateFirstNPC (u : NPCUpdate) : List NPC → List NPC
  | [] => []
  | n :: rest =>
    if lowerString n.name = lowerString u.name then
      { n with
          condition := u.condition
          type := match u.status with
            | some s => if s = "" then n.type else s
            | none => n.type } :: rest
    else
      n :: updateFirstNPC u rest

/-- Line 549-551 guard `newEquipped.<slot> && removedNames.includes(
newEquipped.<slot>.name.toLowerCase())`: does the removal list destroy the
item in this slot? -/
def slotRemoved (removedNames : List String) (slot : Option InventoryItem) : Bool :=
  match slot with
  | some it => removedNames.contains (lowerString it.name)
  | none => false

/-- Lines 538-547: previously equipped items that are neither still equipped
nor destroyed are pushed back into the inventory unless an item with the
same id is already there.  (With this version's reconciler `equippedIds` is
exactly the ids of `oldEquippedList`, so the push never fires; kept
faithful to the source.) -/
def pushBackOldEquipped (equippedIds : List Nat) (removedNames : List String)
    (inv : List InventoryItem) (oldEquippedList : List InventoryItem) : List InventoryItem :=
  oldEquippedList.foldl (fun acc oldItem =>
    let stillEquipped := equippedIds.contains oldItem.id
    let destroyed := removedNames.contains (lowerString oldItem.name)
    if !stillEquipped && !destroyed then
      if (acc.find? (fun i => i.id = oldItem.id)).isNone then acc ++ [oldItem] else acc
    else acc) inv

/-- Pair each list element with its index, for injected id supplies standing
in for the source's `Math.random()` id generation. -/
def enumerate {α : Type} (l : List α) : List (Nat × α) :=
  (List.range l.length).zip l

/-- The state reconciler: a faithful translation of the `setGameState`
updater inside `generateAndProcessAIResponse` (lines 501-675).  `factory` is
the injected item classifier, `effectId`/`npcId` are injected id supplies
(indexed by position) and `turnId` stands for `Date.now().toString()`. -/
def processAIResponse (factory : String → InventoryItem) (effectId npcId : Nat → Nat)
    (turnId : String) (prev : GameState) (ai : AIStoryResponse) : GameState :=
  let newItems : List InventoryItem := ai.inventory_added.map (mkItemFromAI factory)
  let removedNames : List String := ai.inventory_removed.map lowerString
  let inv1 := prev.inventory ++ newItems
  let inv2 := inv1.filter (fun item => !(removedNames.contains (lowerString item.name)))
  let inv3 := if inv2.length > 8 then inv2.take 8 else inv2
  let equippedIds := equippedIdList prev.equipped
  let inv4 := inv3.filter (fun i => !(equippedIds.contains i.id))
  let oldEquippedList :=
    [prev.equipped.weapon, prev.equipped.armor, prev.equipped.accessory].filterMap id
  let inv5 := pushBackOldEquipped equippedIds removedNames inv4 oldEquippedList
  let wRemoved := slotRemoved removedNames prev.equipped.weapon
  let aRemoved := slotRemoved removedNames prev.equipped.armor
  let cRemoved := slotRemoved removedNames prev.equipped.accessory
  let newEquipped : EquippedGear :=
    { weapon := if wRemoved then none else prev.equipped.weapon
      armor := if aRemoved then none else prev.equipped.armor
      accessory := if cRemoved then none else prev.equipped.accessory }
  let equippedUpdated := wRemoved || aRemoved || cRemoved
  let hpChange := ai.hp_change.getD 0
  let newHp0 := min prev.maxHp (max 0 (prev.hp + hpChange))
  let status0 := ai.game_status.getD GameStatus.ongoing
  let status := if newHp0 ≤ 0 then GameStatus.lost else status0
  let newHp := if newHp0 ≤ 0 then 0 else newHp0
  let statsPair : StatMap × Option (List (StatType × Int)) :=
    match ai.stats_update with
    | none => (prev.stats, none)
    | some upd =>
      let folded := upd.foldl (fun (acc : StatMap × List (StatType × Int)) kv =>
          let val0 := kv.2
          let val1 := if val0 > 5 then 5 else val0
          let val := if val1 < -2 then -2 else val1
          if val ≠ 0 then (acc.1.set kv.1 (acc.1.get kv.1 + val), acc.2 ++ [(kv.1, val)])
          else acc) (prev.stats, [])
      (folded.1, if folded.2.isEmpty then none else some folded.2)
  let newStats0 := statsPair.1
  let finalStatsUpdate := statsPair.2
  let brandNewEffects := (enumerate ai.new_effects).map
      (fun p => { p.2 with id := effectId p.1 })
  let finalActiveEffects := prev.activeEffects ++ brandNewEffects
  let npcsUpd := ai.npcs_update.getD ⟨[], [], []⟩
  let npcs1 := prev.npcs ++ (enumerate npcsUpd.add).map
      (fun p => (⟨npcId p.1, p.2.name, p.2.type, p.2.condition⟩ : NPC))
  let npcs2 := npcsUpd.update.foldl (fun acc u => updateFirstNPC u acc) npcs1
  let npcs3 := npcs2.filter (fun n => !(npcsUpd.remove.contains n.name))
  let arRes : StatMap × StatMap × Option LevelUpEvent × Option RollResult :=
    match ai.action_result with
    | none => (newStats0, prev.statExperience, none, none)
    | some ar =>
      let rr : RollResult :=
        ⟨ar.total, ar.base_roll, ar.total - ar.base_roll, ar.is_success, ar.stat, ar.difficulty⟩
      if ar.is_success then
        let nextExp := prev.statExperience.get ar.stat + 1
        if nextExp ≥ EXP_THRESHOLD then
          let oldValue := newStats0.get ar.stat
          (newStats0.set ar.stat (oldValue + 1), prev.statExperience.set ar.stat 0,
           some ⟨ar.stat, oldValue, oldValue + 1⟩, some rr)
        else
          (newStats0, prev.statExperience.set ar.stat nextExp, none, some rr)
      else
        (newStats0, prev.statExperience, none, some rr)
  let newStats := arRes.1
  let finalStatExp := arRes.2.1
  let customActionLevelUp := arRes.2.2.1
  let customActionRollResult := arRes.2.2.2
  let aiTurn : StoryTurn :=
    { id := turnId ++ "-ai"
      text := ai.narrative
      choices := ai.choices
      isUserTurn := false
      rollResult := customActionRollResult
      levelUpEvent := customActionLevelUp
      statsUpdated := finalStatsUpdate
      inventoryAdded := newItems
      inventoryRemoved := ai.inventory_removed
      newEffects := if brandNewEffects.length > 0 then some brandNewEffects else none
      npcUpdates := npcsUpd.add }
  { prev with
      history := prev.history ++ [aiTurn]
      inventory := inv5
      equipped := if equippedUpdated then newEquipped else prev.equipped
      activeEffects := finalActiveEffects
      currentQuest := jsOrString ai.quest_update prev.currentQuest
      npcs := npcs3
      isLoading := false
      hp := newHp
      hpHistory := prev.hpHistory ++ [newHp]
      stats := newStats
      statExperience := finalStatExp
      gameStatus := status
      phase := if status = GameStatus.ongoing then GamePhase.playing else GamePhase.game_over }

/-- Turn lifecycle controller state: the mutable request counter
(`requestIdRef`), the retryable-failure flag and the game state. -/
structure ControllerState where
  requestId : Nat
  showRetry : Bool
  game : GameState
deriving DecidableEq, Repr

/-- Issuance half of `generateAndProcessAIResponse` (line 445):
`const currentRequestId = ++requestIdRef.current`.  Returns the id the
in-flight request was tagged with. -/
def issueRequest (s : ControllerState) : Nat × ControllerState :=
  (s.requestId + 1, { s with requestId := s.requestId + 1 })

/-- handleStopRequest (lines 423-427): advance the current request id
(invalidating the in-flight response), clear loading, flip the retry flag. -/
def handleStopRequest (s : ControllerState) : ControllerState :=
  { s with
      requestId := s.requestId + 1
      game := { s.game with isLoading := false }
      showRetry := true }

/-- Arrival half of `generateAndProcessAIResponse` (lines 477-480 and
501-675): a response tagged with a request id different from the current one
is discarded without touching any state; otherwise it is handed to the
reconciler. -/
def responseArrives (factory : String → InventoryItem) (effectId npcId : Nat → Nat)
    (turnId : String) (issuedId : Nat) (ai : AIStoryResponse)
    (s : ControllerState) : ControllerState :=
  if issuedId ≠ s.requestId then s
  else { s with game := processAIResponse factory effectId npcId turnId s.game ai }

/-
Delimited-text normalizer `parseTextResponse` (src/services/gemini.ts,
lines 465-611).  Strings are processed as explicit character lists; the
section regex `###\s*([A-Z_]+)[ \t]*(?:\r?\n|\r)([\s\S]*?)(?=(?:###\s*[A-Z_]+)|$)`
with a global `exec` loop is implemented as a character scanner with exactly
the regex's semantics (leftmost match, lazy content stopped by the
`###\s*[A-Z_]+` lookahead or end of input, resume after the match).  The one
fallible spot of the source (`val.toLowerCase()` on a possibly-undefined
destructured value in the ACTION_RESULT block) is modelled with `Except`.
-/

/-- JavaScript `\s` (ASCII range; the unicode space classes never occur in
the embedded scenarios). -/
def jsIsSpace (c : Char) : Bool :=
  c = ' ' || c = '\t' || c = '\n' || c = '\r' || c = '\x0b' || c = '\x0c'

/-- Character class `[A-Z_]` of the section-header regex. -/
def isHeaderChar (c : Char) : Bool := ('A' ≤ c && c ≤ 'Z') || c = '_'

def isDigitChar (c : Char) : Bool := '0' ≤ c && c ≤ '9'

def isUpperAZ (c : Char) : Bool := 'A' ≤ c && c ≤ 'Z'

/-- JavaScript `trim()` over the character list (ASCII whitespace set). -/
def jsTrimChars (cs : List Char) : List Char :=
  ((cs.dropWhile jsIsSpace).reverse.dropWhile jsIsSpace).reverse

def jsTrim (s : String) : String := String.mk (jsTrimChars s.data)

/-- JavaScript `split(sep)` for a one-character separator (the source only
splits on `'|'` and `':'`). -/
def splitOnSepAux (sep : Char) : List Char → List Char → List String
  | [], acc => [String.mk acc.reverse]
  | c :: rest, acc =>
    if c = sep then String.mk acc.reverse :: splitOnSepAux sep rest []
    else splitOnSepAux sep rest (c :: acc)

def splitOnSep (sep : Char) (cs : List Char) : List String := splitOnSepAux sep cs []

/-- The `(?:\r?\n|\r)` alternative of the section regex: consume one line
break, returning the remainder. -/
def matchNewline : List Char → Option (List Char)
  | [] => none
  | [d] => if d = '\r' || d = '\n' then some [] else none
  | d :: e :: tl =>
    if d = '\r' then (if e = '\n' then some tl else some (e :: tl))
    else if d = '\n' then some (e :: tl)
    else none

/-- Attempt to match `###\s*([A-Z_]+)[ \t]*(?:\r?\n|\r)` at the head of the
input; on success return the captured header and the remainder (the start of
the lazy content group).  The greedy subpatterns need no backtracking
because their character classes are pairwise disjoint with what follows. -/
def matchHeaderAt (cs : List Char) : Option (List Char × List Char) :=
  match cs with
  | a :: b :: c :: rest =>
    if a = '#' && b = '#' && c = '#' then
      let rest1 := rest.dropWhile jsIsSpace
      let hdr := rest1.takeWhile isHeaderChar
      let rest2 := rest1.dropWhile isHeaderChar
      if hdr.isEmpty then none
      else
        match matchNewline (rest2.dropWhile (fun ch => ch = ' ' || ch = '\t')) with
        | some r => some (hdr, r)
        | none => none
    else none
  | _ => none

/-- The lookahead `(?=###\s*[A-Z_]+)` that terminates a section's lazy
content group. -/
def lookaheadHeader (cs : List Char) : Bool :=
  match cs with
  | a :: b :: c :: rest =>
    (a = '#' && b = '#' && c = '#') &&
      (match rest.dropWhile jsIsSpace with
       | d :: _ => isHeaderChar d
       | [] => false)
  | _ => false

/-- Lazy content group `([\s\S]*?)`: the shortest prefix whose remainder
satisfies the header lookahead (or all input when none does). -/
def takeContent : List Char → List Char × List Char
  | [] => ([], [])
  | c :: rest =>
    if lookaheadHeader (c :: rest) then ([], c :: rest)
    else
      let p := takeContent rest
      (c :: p.1, p.2)

/-- The global `exec` loop of the section regex: find the leftmost header
match, capture its content up to the lookahead, resume after it.  Structural
recursion on a fuel bounded by the input length (every step consumes at
least one character, see `extractLoopF_succ`, so the zero-fuel branch is
unreachable from `extractLoop`). -/
def extractLoopF : Nat → List Char → List (String × String)
  | 0, _ => []
  | _, [] => []
  | fuel + 1, c :: rest =>
    match matchHeaderAt (c :: rest) with
    | some p =>
      let q := takeContent p.2
      (String.mk p.1, String.mk q.1) :: extractLoopF fuel q.2
    | none => extractLoopF fuel rest

def extractLoop (cs : List Char) : List (String × String) := extractLoopF cs.length cs

/-- Section table: `sections[match[1].trim()] = match[2].trim()`; the
JavaScript record keeps the last assignment per key. -/
def extractSections (text : String) : List (String × String) :=
  (extractLoop text.data).map (fun p => (jsTrim p.1, jsTrim p.2))

def sectionsGet (sections : List (String × String)) (key : String) : Option String :=
  (sections.reverse.find? (fun p => p.1 = key)).map (fun p => p.2)

/-- JavaScript truthiness of an optional string (`undefined` and `''` are
falsy). -/
def jsTruthyStr : Option String → Bool
  | some s => s ≠ ""
  | none => false

/-- JavaScript `split(/\r?\n/)`: split on `\n` optionally preceded by `\r`;
a lone `\r` does not split. -/
def splitLinesAux : List Char → List Char → List String
  | [], acc => [String.mk acc.reverse]
  | '\r' :: '\n' :: rest, acc => String.mk acc.reverse :: splitLinesAux rest []
  | '\n' :: rest, acc => String.mk acc.reverse :: splitLinesAux rest []
  | c :: rest, acc => splitLinesAux rest (c :: acc)

def splitLines (s : String) : List String := splitLinesAux s.data []

def digitsToNat (ds : List Char) : Nat :=
  ds.foldl (fun a c => a * 10 + (c.toNat - '0'.toNat)) 0

def isHexDigit (c : Char) : Bool :=
  isDigitChar c || ('a' ≤ c && c ≤ 'f') || ('A' ≤ c && c ≤ 'F')

def hexVal (c : Char) : Nat :=
  if isDigitChar c then c.toNat - '0'.toNat
  else if 'a' ≤ c && c ≤ 'f' then c.toNat - 'a'.toNat + 10
  else c.toNat - 'A'.toNat + 10

def hexToNat (ds : List Char) : Nat := ds.foldl (fun a c => a * 16 + hexVal c) 0

/-- JavaScript `parseInt(s)` (radix auto-detection): skip leading whitespace,
optional sign, `0x`/`0X` hex prefix, then the maximal digit run; `none`
models `NaN`. -/
def jsParseInt (s : String) : Option Int :=
  let cs := s.data.dropWhile jsIsSpace
  let signAndRest : Int × List Char :=
    match cs with
    | '-' :: r => (-1, r)
    | '+' :: r => (1, r)
    | _ => (1, cs)
  let sign := signAndRest.1
  match signAndRest.2 with
  | '0' :: x :: r =>
    if x = 'x' || x = 'X' then
      let ds := r.takeWhile isHexDigit
      if ds.isEmpty then none else some (sign * (hexToNat ds : Nat))
    else
      let ds := (('0' : Char) :: x :: r).takeWhile isDigitChar
      if ds.isEmpty then none else some (sign * (digitsToNat ds : Nat))
  | other =>
    let ds := other.takeWhile isDigitChar
    if ds.isEmpty then none else some (sign * (digitsToNat ds : Nat))

/-- startsWith-plus-`replace(KEY, '')` pair used on every UPDATES line: when
the literal key is a prefix, return the remainder. -/
def dropPrefix? (pre s : List Char) : Option (List Char) :=
  match pre, s with
  | [], s => some s
  | _ :: _, [] => none
  | p :: ps, c :: cs => if c = p then dropPrefix? ps cs else none

/-- Optional separator `[:=+]?` of the bonus regex (greedy; no backtracking
needed since the following classes are disjoint). -/
def dropSeparator (l : List Char) : List Char :=
  match l with
  | ch :: tl => if ch = ':' || ch = '=' || ch = '+' then tl else ch :: tl
  | [] => []

/-- One match attempt of the bonus regex `([A-Z]{3})\s*[:=+]?\s*(\d+)` at the
head of the input; returns stat, value and the remainder after the match. -/
def matchBonusAt (cs : List Char) : Option (String × Nat × List Char) :=
  match cs with
  | a :: b :: c :: rest =>
    if isUpperAZ a && isUpperAZ b && isUpperAZ c then
      let r3 := (dropSeparator (rest.dropWhile jsIsSpace)).dropWhile jsIsSpace
      let ds := r3.takeWhile isDigitChar
      if ds.isEmpty then none
      else some (String.mk [a, b, c], digitsToNat ds, r3.drop ds.length)
    else none
  | _ => none

/-- Global scan of the bonus regex (`exec` loop inside ITEM_ADD parsing),
with the same exact-fuel scheme as `extractLoopF`. -/
def scanBonusesF : Nat → List Char → List (String × Nat)
  | 0, _ => []
  | _, [] => []
  | fuel + 1, c :: rest =>
    match matchBonusAt (c :: rest) with
    | some t => (t.1, t.2.1) :: scanBonusesF fuel t.2.2
    | none => scanBonusesF fuel rest

def scanBonuses (cs : List Char) : List (String × Nat) := scanBonusesF cs.length cs

/-- JavaScript record assignment `bonuses[stat] = val`: overwrite in place,
else append, preserving insertion order. -/
def recordSetNat (l : List (String × Nat)) (k : String) (v : Nat) : List (String × Nat) :=
  if l.any (fun p => p.1 = k) then l.map (fun p => if p.1 = k then (k, v) else p)
  else l ++ [(k, v)]

/-- Choice line after enumeration stripping: `parseTextResponse` records the
raw stat string and a difficulty that is `undefined` (outer `none`) when
`parts[2]` is falsy, and may be `NaN` (inner `none`) when `parseInt` fails. -/
structure TextChoice where
  text : String
  type : Option String
  difficulty : Option (Option Int)
deriving DecidableEq, Repr

/-- Leading-enumeration strip `replace(/^\d+\.\s*/, '')`. -/
def stripEnumeration (cs : List Char) : List Char :=
  let ds := cs.takeWhile isDigitChar
  if ds.isEmpty then cs
  else match cs.drop ds.length with
    | '.' :: rest => rest.dropWhile jsIsSpace
    | _ => cs

/-- One CHOICES line: `N. <text> | <STAT|NONE> | <difficulty>` (lines
486-498), including the bracket-unwrap of the text. -/
def parseChoiceLine (line : String) : TextChoice :=
  let parts := (splitOnSep '|' (stripEnumeration line.data)).map jsTrim
  let t0 := parts.headD ""
  let t1 := match t0.data with
    | '[' :: tl =>
      if tl.getLast? = some ']' then String.mk tl.dropLast else t0
    | _ => t0
  let ty : Option String := match parts.get? 1 with
    | some p1 => if p1 = "NONE" || p1 = "" then none else some p1
    | none => none
  let diff : Option (Option Int) := match parts.get? 2 with
    | some p2 => if p2 = "" then none else some (jsParseInt p2)
    | none => none
  ⟨t1, ty, diff⟩

structure ParsedItem where
  name : String
  type : String
  description : String
  bonuses : Option (List (String × Nat))
deriving DecidableEq, Repr

structure ParsedEffect where
  id : Nat
  name : String
  type : String
  description : String
  duration : Int
deriving DecidableEq, Repr

/-- Partially filled ACTION_RESULT record; each field models the possibly
undefined (or, for the numbers, NaN) value of the source's dynamic object. -/
structure ActionPartial where
  stat : Option String
  difficulty : Option Int
  base_roll : Option Int
  total : Option Int
  is_success : Option Bool
deriving DecidableEq, Repr

/-- Output of `parseTextResponse`.  The source lazily creates
`equipment_update = { equip: [], unequip: [] }`; the two directive lists
model it (absent is indistinguishable from empty downstream). -/
structure ParsedResponse where
  narrative : String
  choices : List TextChoice
  game_status : GameStatus
  hp_change : Int
  quest_update : Option String
  inventory_added : List ParsedItem
  inventory_removed : List String
  equip_directives : List String
  unequip_directives : List String
  new_effects : List ParsedEffect
  action_result : Option ActionPartial
deriving DecidableEq, Repr

/-- EFFECT_ADD duration `parseInt(parts[2]) || 3` (NaN and 0 are falsy). -/
def effectDuration (p : Option String) : Int :=
  match p with
  | some s =>
    match jsParseInt s with
    | some v => if v = 0 then 3 else v
    | none => 3
  | none => 3

/-- Dispatch of one non-blank UPDATES line over the already-trimmed
characters (lines 508-592).  The recognized keys are pairwise non-prefix, so
the source's sequence of independent `if (startsWith)` blocks fires at most
once and is equivalent to this cascade; a `NONE` (case-insensitive) entity
name skips the line (`continue`). -/
def applyUpdateClean (effectId : Nat → Nat) (r : ParsedResponse) (cs : List Char) :
    ParsedResponse :=
  match dropPrefix? "HP:".data cs with
  | some rest => { r with hp_change := (jsParseInt (jsTrim (String.mk rest))).getD 0 }
  | none =>
  match dropPrefix? "STATUS:".data cs with
  | some rest =>
    let status := jsTrim (String.mk rest)
    if status = "won" then { r with game_status := GameStatus.won }
    else if status = "lost" then { r with game_status := GameStatus.lost }
    else { r with game_status := GameStatus.ongoing }
  | none =>
  match dropPrefix? "QUEST:".data cs with
  | some rest =>
    let q := jsTrim (String.mk rest)
    if q ≠ "SAME" then { r with quest_update := some q } else r
  | none =>
  match dropPrefix? "ITEM_ADD:".data cs with
  | some rest =>
    let parts := (splitOnSep '|' rest).map jsTrim
    let p0 := parts.headD ""
    if upperString p0 = "NONE" then r
    else
      let bonuses : Option (List (String × Nat)) :=
        match parts.get? 3 with
        | some p3 =>
          if p3 ≠ "" && p3 ≠ "NONE" then
            some ((scanBonuses p3.data).foldl (fun acc sv => recordSetNat acc sv.1 sv.2) [])
          else none
        | none => none
      { r with inventory_added := r.inventory_added ++
          [⟨p0, jsOrString (parts.get? 1) "misc", jsOrString (parts.get? 2) "", bonuses⟩] }
  | none =>
  match dropPrefix? "ITEM_REMOVE:".data cs with
  | some rest =>
    let name := jsTrim (String.mk rest)
    if upperString name = "NONE" then r
    else { r with inventory_removed := r.inventory_removed ++ [name] }
  | none =>
  match dropPrefix? "EQUIP:".data cs with
  | some rest =>
    let name := jsTrim (String.mk rest)
    if upperString name = "NONE" then r
    else { r with equip_directives := r.equip_directives ++ [name] }
  | none =>
  match dropPrefix? "UNEQUIP:".data cs with
  | some rest =>
    let name := jsTrim (String.mk rest)
    if upperString name = "NONE" then r
    else { r with unequip_directives := r.unequip_directives ++ [name] }
  | none =>
  match dropPrefix? "EFFECT_ADD:".data cs with
  | some rest =>
    let parts := (splitOnSep '|' rest).map jsTrim
    let p0 := parts.headD ""
    if upperString p0 = "NONE" then r
    else
      { r with new_effects := r.new_effects ++
          [⟨effectId r.new_effects.length, p0, jsOrString (parts.get? 1) "debuff", p0,
            effectDuration (parts.get? 2)⟩] }
  | none => r

/-- One UPDATES loop iteration: trim, skip blanks, dispatch. -/
def applyUpdateLine (effectId : Nat → Nat) (r : ParsedResponse) (line : String) :
    ParsedResponse :=
  let cleanLine := jsTrim line
  if cleanLine = "" then r
  else applyUpdateClean effectId r cleanLine.data

/-- One ACTION_RESULT line (lines 599-606): `const [key, val] =
line.split(':').map(s => s.trim())`.  When the line has no colon, `val` is
`undefined` and the `SUCCESS` branch's `val.toLowerCase()` raises a
TypeError — modelled as `Except.error`. -/
def applyActionLine (p : ActionPartial) (line : String) : Except String ActionPartial :=
  let parts := (splitOnSep ':' line.data).map jsTrim
  let key := parts.headD ""
  let val : Option String := parts.get? 1
  if key = "STAT" then Except.ok { p with stat := val }
  else if key = "DC" then Except.ok { p with difficulty := val.bind jsParseInt }
  else if key = "BASE" then Except.ok { p with base_roll := val.bind jsParseInt }
  else if key = "TOTAL" then Except.ok { p with total := val.bind jsParseInt }
  else if key = "SUCCESS" then
    match val with
    | none => Except.error "TypeError: val is undefined"
    | some v => Except.ok { p with is_success := some (lowerString v = "true") }
  else Except.ok p

def parseActionLines : ActionPartial → List String → Except String ActionPartial
  | p, [] => Except.ok p
  | p, l :: rest =>
    match applyActionLine p l with
    | Except.ok p2 => parseActionLines p2 rest
    | Except.error e => Except.error e

/-- parseTextResponse (lines 465-611).  `effectId` injects the id supply for
EFFECT_ADD entries (`Math.random()` in the source).  `Except.error` marks
the input classes on which the source raises. -/
def parseTextResponse (effectId : Nat → Nat) (text : String) :
    Except String ParsedResponse :=
  let sections := extractSections text
  let narrative := jsOrString (sectionsGet sections "NARRATIVE") text
  let r0 : ParsedResponse :=
    ⟨narrative, [], GameStatus.ongoing, 0, none, [], [], [], [], [], none⟩
  let r1 :=
    if jsTruthyStr (sectionsGet sections "CHOICES") then
      let sec := (sectionsGet sections "CHOICES").getD ""
      let lines := (splitLines sec).filter (fun l => (jsTrim l).length > 0)
      { r0 with choices := lines.map parseChoiceLine }
    else r0
  let r2 :=
    if jsTruthyStr (sectionsGet sections "UPDATES") then
      let sec := (sectionsGet sections "UPDATES").getD ""
      (splitLines sec).foldl (applyUpdateLine effectId) r1
    else r1
  if jsTruthyStr (sectionsGet sections "ACTION_RESULT") then
    let sec := (sectionsGet sections "ACTION_RESULT").getD ""
    match parseActionLines ⟨none, none, none, none, none⟩ (splitLines sec) with
    | Except.ok result =>
      Except.ok (if jsTruthyStr result.stat then { r2 with action_result := some result } else r2)
    | Except.error e => Except.error e
  else Except.ok r2

/-! Concrete fixtures used by witnesses and counterexamples. -/

/-- A TurnDelta with no changes in any field (the spec's empty delta). -/
def emptyDelta : AIStoryResponse :=
  ⟨"", [], [], [], none, none, none, none, [], none, none⟩

/-- Trivial injected item classifier (id constant, type misc). -/
def factory0 : String → InventoryItem := fun name => ⟨0, name, ItemType.misc, none, none⟩

/-- Identity id supply. -/
def idSupply : Nat → Nat := fun n => n

def itemN (i : Nat) : InventoryItem := ⟨i, "thing", ItemType.misc, none, none⟩

def prevC1 : GameState := { initialGameState with hp := 40 }

def aiC1 : AIStoryResponse :=
  { emptyDelta with hp_change := some (-150), game_status := some GameStatus.ongoing }

def ctrl0 : ControllerState := ⟨5, false, initialGameState⟩

def prevC3 : GameState :=
  { initialGameState with
      inventory := [itemN 1, itemN 2, itemN 3, itemN 4, itemN 5, itemN 6, itemN 7, itemN 8] }

def aiC3 : AIStoryResponse :=
  { emptyDelta with inventory_added := [⟨"lantern", none, none, none⟩, ⟨"rope", none, none, none⟩] }

def factoryC3 : String → InventoryItem := fun name => ⟨30, name, ItemType.misc, none, none⟩

def prevC4 : GameState := { initialGameState with phase := GamePhase.playing }

/-- Armor granting CON+2 for the C5 scenario. -/
def beltCON2 : InventoryItem := ⟨1, "Belt of Vitality", ItemType.armor, none, some ⟨0, 0, 2, 0, 0, 0, 0⟩⟩

def gearC5 : EquippedGear := ⟨none, some beltCON2, none⟩

def prevC6 : GameState := { initialGameState with statExperience := ⟨2, 0, 0, 0, 0, 0, 0⟩ }

def aiWon : AIStoryResponse := { emptyDelta with game_status := some GameStatus.won }

def aiOngoing : AIStoryResponse := { emptyDelta with game_status := some GameStatus.ongoing }

def prevC10 : GameState := { initialGameState with customChoicesRemaining := 0 }

def emptyParsed : ParsedResponse := ⟨"", [], GameStatus.ongoing, 0, none, [], [], [], [], [], none⟩

/-! Supporting lemmas about the embedded definitions. -/

theorem length_dropWhile_le {α : Type} (p : α → Bool) (l : List α) :
    (l.dropWhile p).length ≤ l.length := by
  induction l with
  | nil => simp [List.dropWhile]
  | cons a tl ih =>
    rw [List.dropWhile]
    cases hpa : p a <;> simp <;> omega

theorem matchNewline_lt {cs r : List Char} (h : matchNewline cs = some r) :
    r.length < cs.length := by
  match cs with
  | [] => simp [matchNewline] at h
  | [d] =>
    simp only [matchNewline] at h
    split at h
    · injection h with h; subst h; simp
    · exact absurd h (by simp)
  | d :: e :: tl =>
    simp only [matchNewline] at h
    split at h
    · split at h <;> (injection h with h ; subst h ; simp ; try omega)
    · split at h
      · injection h with h; subst h; simp
      · exact absurd h (by simp)

theorem matchHeaderAt_rest_lt {cs hdr r : List Char}
    (h : matchHeaderAt cs = some (hdr, r)) : r.length < cs.length := by
  match cs with
  | [] => simp [matchHeaderAt] at h
  | [a] => simp [matchHeaderAt] at h
  | [a, b] => simp [matchHeaderAt] at h
  | a :: b :: c :: rest =>
    simp only [matchHeaderAt] at h
    split at h
    · split at h
      · exact absurd h (by simp)
      · split at h
        · rename_i r' heq
          injection h with h'
          injection h' with h1 h2
          subst h2
          have hlt := matchNewline_lt heq
          have hd1 : ((rest.dropWhile jsIsSpace).dropWhile isHeaderChar).length ≤
              (rest.dropWhile jsIsSpace).length := length_dropWhile_le _ _
          have hd2 : (rest.dropWhile jsIsSpace).length ≤ rest.length := length_dropWhile_le _ _
          have hd3 : (((rest.dropWhile jsIsSpace).dropWhile isHeaderChar).dropWhile
              (fun ch => ch = ' ' || ch = '\t')).length ≤
              ((rest.dropWhile jsIsSpace).dropWhile isHeaderChar).length := length_dropWhile_le _ _
          simp only [List.length_cons]
          omega
        · exact absurd h (by simp)
    · exact absurd h (by simp)

theorem takeContent_snd_length_le (cs : List Char) : (takeContent cs).2.length ≤ cs.length := by
  induction cs with
  | nil => simp [takeContent]
  | cons c rest ih =>
    simp only [takeContent]
    split
    · simp
    · simpa using Nat.le_succ_of_le ih

/-- Fuel irrelevance: any fuel at least the input length gives the same
scan, so `extractLoop`'s fuel choice is exact, not an approximation. -/
theorem extractLoopF_succ (fuel : Nat) : ∀ cs : List Char, cs.length ≤ fuel →
    extractLoopF (fuel + 1) cs = extractLoopF fuel cs := by
  induction fuel with
  | zero =>
    intro cs hcs
    have : cs = [] := List.eq_nil_of_length_eq_zero (Nat.le_zero.mp hcs)
    subst this
    simp [extractLoopF]
  | succ fuel ih =>
    intro cs hcs
    match cs with
    | [] => simp [extractLoopF]
    | c :: rest =>
      simp only [extractLoopF]
      match hm : matchHeaderAt (c :: rest) with
      | some p =>
        simp only []
        have h1 := matchHeaderAt_rest_lt hm
        have h2 := takeContent_snd_length_le p.2
        simp only [List.length_cons] at h1 hcs
        rw [ih (takeContent p.2).2 (by omega)]
      | none =>
        simp only []
        have : rest.length ≤ fuel := by
          simp only [List.length_cons] at hcs
          omega
        rw [ih rest this]

theorem dropSeparator_length_le (l : List Char) : (dropSeparator l).length ≤ l.length := by
  match l with
  | [] => simp [dropSeparator]
  | ch :: tl =>
    simp only [dropSeparator]
    split <;> simp

theorem matchBonusAt_after_lt {cs : List Char} {t : String × Nat × List Char}
    (h : matchBonusAt cs = some t) : t.2.2.length < cs.length := by
  match cs with
  | [] => simp [matchBonusAt] at h
  | [a] => simp [matchBonusAt] at h
  | [a, b] => simp [matchBonusAt] at h
  | a :: b :: c :: rest =>
    simp only [matchBonusAt] at h
    split at h
    · split at h
      · exact absurd h (by simp)
      · injection h with h
        subst h
        have hr1 : (rest.dropWhile jsIsSpace).length ≤ rest.length := length_dropWhile_le _ _
        have hr2 := dropSeparator_length_le (rest.dropWhile jsIsSpace)
        have hr3 := length_dropWhile_le jsIsSpace (dropSeparator (rest.dropWhile jsIsSpace))
        simp only [List.length_drop, List.length_cons]
        omega
    · exact absurd h (by simp)

theorem scanBonusesF_succ (fuel : Nat) : ∀ cs : List Char, cs.length ≤ fuel →
    scanBonusesF (fuel + 1) cs = scanBonusesF fuel cs := by
  induction fuel with
  | zero =>
    intro cs hcs
    have : cs = [] := List.eq_nil_of_length_eq_zero (Nat.le_zero.mp hcs)
    subst this
    simp [scanBonusesF]
  | succ fuel ih =>
    intro cs hcs
    match cs with
    | [] => simp [scanBonusesF]
    | c :: rest =>
      simp only [scanBonusesF]
      match hm : matchBonusAt (c :: rest) with
      | some t =>
        simp only []
        have h1 := matchBonusAt_after_lt hm
        simp only [List.length_cons] at h1 hcs
        rw [ih t.2.2 (by omega)]
      | none =>
        simp only []
        have : rest.length ≤ fuel := by
          simp only [List.length_cons] at hcs
          omega
        rw [ih rest this]

theorem dropPrefix?_eq_some {pre s r : List Char} (h : dropPrefix? pre s = some r) :
    s = pre ++ r := by
  induction pre generalizing s with
  | nil =>
    simp only [dropPrefix?, Option.some.injEq] at h
    simp [h]
  | cons p ps ih =>
    match s with
    | [] => simp [dropPrefix?] at h
    | c :: cs =>
      simp only [dropPrefix?] at h
      split at h
      · rename_i hc
        subst hc
        simpa using ih h
      · exact absurd h (by simp)

theorem StatMap.get_set_self (m : StatMap) (s : StatType) (v : Int) :
    (m.set s v).get s = v := by
  cases s <;> rfl

theorem slotRemoved_nil (o : Option InventoryItem) : slotRemoved [] o = false := by
  cases o <;> rfl

theorem mem_equipped_contains (g : EquippedGear) (x : InventoryItem)
    (hx : x ∈ [g.weapon, g.armor, g.accessory].filterMap id) :
    (equippedIdList g).contains x.id = true := by
  rcases g with ⟨w, a, c⟩
  cases w <;> cases a <;> cases c <;>
    simp_all [equippedIdList, List.filterMap] <;>
    rcases hx with h | h | h <;> simp_all

theorem pushBackOldEquipped_self (ids : List Nat) (removed : List String)
    (l : List InventoryItem) (hl : ∀ x ∈ l, ids.contains x.id = true) :
    ∀ inv : List InventoryItem, pushBackOldEquipped ids removed inv l = inv := by
  induction l with
  | nil => intro inv; rfl
  | cons x tl ih =>
    intro inv
    have hx := hl x (by simp)
    simp only [pushBackOldEquipped, List.foldl_cons, hx, Bool.not_true, Bool.false_and,
      Bool.false_eq_true, if_false]
    exact ih (fun y hy => hl y (by simp [hy])) inv

theorem processAIResponse_isLoading (factory : String → InventoryItem)
    (effectId npcId : Nat → Nat) (turnId : String) (g : GameState) (b : Bool)
    (ai : AIStoryResponse) :
    processAIResponse factory effectId npcId turnId { g with isLoading := b } ai =
      processAIResponse factory effectId npcId turnId g ai := rfl

/-! Claim theorems. -/

/-- C1: for every character state (with nonnegative maxHp) and every turn
delta, reconciling sets the new hp to clamp(hp + hp_change, 0, maxHp), and
whenever the resulting hp equals 0 the resulting gameStatus is lost, no
matter what the delta's game_status field says. -/
theorem hp_clamp_and_forced_loss (factory : String → InventoryItem)
    (effectId npcId : Nat → Nat) (turnId : String) (prev : GameState) (ai : AIStoryResponse)
    (hmax : 0 ≤ prev.maxHp) :
    (processAIResponse factory effectId npcId turnId prev ai).hp =
      min prev.maxHp (max 0 (prev.hp + ai.hp_change.getD 0)) ∧
    ((processAIResponse factory effectId npcId turnId prev ai).hp = 0 →
      (processAIResponse factory effectId npcId turnId prev ai).gameStatus = GameStatus.lost) := by
  dsimp only [processAIResponse]
  constructor
  · split
    · rename_i hle
      rw [min_def, max_def] at *
      split_ifs at * <;> omega
    · rfl
  · intro hhp
    split at hhp
    · rename_i hc
      exact if_pos hc
    · rename_i hgt
      exfalso
      omega

/-- C1 witness: the spec scenario hp 40/100 with delta hp_change -150 and
game_status ongoing ends at hp 0 and gameStatus lost. -/
theorem hp_clamp_and_forced_loss_witness :
    (0 : Int) ≤ prevC1.maxHp ∧
    ((processAIResponse factory0 idSupply idSupply "t" prevC1 aiC1).hp =
        min prevC1.maxHp (max 0 (prevC1.hp + aiC1.hp_change.getD 0)) ∧
     ((processAIResponse factory0 idSupply idSupply "t" prevC1 aiC1).hp = 0 →
        (processAIResponse factory0 idSupply idSupply "t" prevC1 aiC1).gameStatus =
          GameStatus.lost)) ∧
    (processAIResponse factory0 idSupply idSupply "t" prevC1 aiC1).hp = 0 ∧
    (processAIResponse factory0 idSupply idSupply "t" prevC1 aiC1).gameStatus = GameStatus.lost :=
  ⟨by decide,
   hp_clamp_and_forced_loss factory0 idSupply idSupply "t" prevC1 aiC1 (by decide),
   by decide, by decide⟩

/-- C2: a response whose originating request id differs from the current id
is discarded without any state mutation, and in the issue-A, cancel,
issue-B scenario the final game state equals the one produced by B alone. -/
theorem request_fencing_discards_superseded (factory : String → InventoryItem)
    (effectId npcId : Nat → Nat) (turnId : String) :
    (∀ (s : ControllerState) (issuedId : Nat) (ai : AIStoryResponse),
      issuedId ≠ s.requestId →
        responseArrives factory effectId npcId turnId issuedId ai s = s) ∧
    (∀ (s0 : ControllerState) (aiA aiB : AIStoryResponse),
      (responseArrives factory effectId npcId turnId
          (issueRequest (handleStopRequest (issueRequest s0).2)).1 aiB
          (responseArrives factory effectId npcId turnId (issueRequest s0).1 aiA
            (issueRequest (handleStopRequest (issueRequest s0).2)).2)).game =
        (responseArrives factory effectId npcId turnId (issueRequest s0).1 aiB
          (issueRequest s0).2).game) := by
  constructor
  · intro s issuedId ai h
    simp only [responseArrives, if_pos h]
  · intro s0 aiA aiB
    have h1 : s0.requestId + 1 ≠ s0.requestId + 1 + 1 + 1 := by omega
    simp only [responseArrives, issueRequest, handleStopRequest, if_pos h1]
    have h2 : ¬ (s0.requestId + 1 + 1 + 1 ≠ s0.requestId + 1 + 1 + 1) := by omega
    have h3 : ¬ (s0.requestId + 1 ≠ s0.requestId + 1) := by omega
    simp only [if_neg h2, if_neg h3]
    exact processAIResponse_isLoading factory effectId npcId turnId s0.game false aiB

/-- C2 witness: a response tagged 3 arriving while the current id is 5 is
discarded unchanged. -/
theorem request_fencing_discards_superseded_witness :
    3 ≠ ctrl0.requestId ∧
    responseArrives factory0 idSupply idSupply "t" 3 emptyDelta ctrl0 = ctrl0 :=
  ⟨by decide,
   (request_fencing_discards_superseded factory0 idSupply idSupply "t").1 ctrl0 3 emptyDelta
     (by decide)⟩

/-- C3: after item intake and removal, the inventory is the first 8 entries
of the concatenation (existing items, then newly added items, minus the
removed names); in particular it never exceeds 8 entries.  The hypothesis is
the equip~inventory disjointness invariant. -/
theorem inventory_capacity_truncation (factory : String → InventoryItem)
    (effectId npcId : Nat → Nat) (turnId : String) (prev : GameState) (ai : AIStoryResponse)
    (hdisj : ∀ i ∈ prev.inventory ++ ai.inventory_added.map (mkItemFromAI factory),
        (equippedIdList prev.equipped).contains i.id = false) :
    (processAIResponse factory effectId npcId turnId prev ai).inventory =
      ((prev.inventory ++ ai.inventory_added.map (mkItemFromAI factory)).filter
        (fun item => !((ai.inventory_removed.map lowerString).contains (lowerString item.name)))).take 8 ∧
    (processAIResponse factory effectId npcId turnId prev ai).inventory.length ≤ 8 := by
  have hfold := pushBackOldEquipped_self (equippedIdList prev.equipped)
    (ai.inventory_removed.map lowerString)
    ([prev.equipped.weapon, prev.equipped.armor, prev.equipped.accessory].filterMap id)
    (fun x hx => mem_equipped_contains prev.equipped x hx)
  have htake : (if ((prev.inventory ++ ai.inventory_added.map (mkItemFromAI factory)).filter
        (fun item => !((ai.inventory_removed.map lowerString).contains (lowerString item.name)))).length > 8
      then ((prev.inventory ++ ai.inventory_added.map (mkItemFromAI factory)).filter
        (fun item => !((ai.inventory_removed.map lowerString).contains (lowerString item.name)))).take 8
      else ((prev.inventory ++ ai.inventory_added.map (mkItemFromAI factory)).filter
        (fun item => !((ai.inventory_removed.map lowerString).contains (lowerString item.name))))) =
      ((prev.inventory ++ ai.inventory_added.map (mkItemFromAI factory)).filter
        (fun item => !((ai.inventory_removed.map lowerString).contains (lowerString item.name)))).take 8 := by
    split
    · rfl
    · rename_i h
      exact (List.take_of_length_le (by omega)).symm
  have hfilt : (((prev.inventory ++ ai.inventory_added.map (mkItemFromAI factory)).filter
        (fun item => !((ai.inventory_removed.map lowerString).contains (lowerString item.name)))).take 8).filter
        (fun i => !((equippedIdList prev.equipped).contains i.id)) =
      ((prev.inventory ++ ai.inventory_added.map (mkItemFromAI factory)).filter
        (fun item => !((ai.inventory_removed.map lowerString).contains (lowerString item.name)))).take 8 := by
    apply List.filter_eq_self.mpr
    intro x hx
    rw [hdisj x (List.mem_of_mem_filter (List.mem_of_mem_take hx))]
    rfl
  dsimp only [processAIResponse]
  rw [htake, hfilt, hfold]
  refine ⟨rfl, ?_⟩
  rw [List.length_take]
  omega

/-- C3 witness: an inventory of 8 items plus a delta adding 2 and removing 0
keeps exactly the original 8 items; the 2 new items are dropped. -/
theorem inventory_capacity_truncation_witness :
    (∀ i ∈ prevC3.inventory ++ aiC3.inventory_added.map (mkItemFromAI factoryC3),
        (equippedIdList prevC3.equipped).contains i.id = false) ∧
    ((processAIResponse factoryC3 idSupply idSupply "t" prevC3 aiC3).inventory =
        ((prevC3.inventory ++ aiC3.inventory_added.map (mkItemFromAI factoryC3)).filter
          (fun item => !((aiC3.inventory_removed.map lowerString).contains (lowerString item.name)))).take 8 ∧
     (processAIResponse factoryC3 idSupply idSupply "t" prevC3 aiC3).inventory.length ≤ 8) ∧
    (processAIResponse factoryC3 idSupply idSupply "t" prevC3 aiC3).inventory = prevC3.inventory :=
  ⟨by decide,
   inventory_capacity_truncation factoryC3 idSupply idSupply "t" prevC3 aiC3 (by decide),
   by decide⟩

/-- C4 counterexample: the claim fails as stated.  A valid character state
(hp 100/100, inventory within cap, equip-disjoint) whose gameStatus is won
is NOT preserved by an empty delta: the reconciler recomputes gameStatus
from the delta alone, so the result reverts to ongoing. -/
theorem empty_delta_reconcile_cex :
    (0 < ({ initialGameState with gameStatus := GameStatus.won } : GameState).hp ∧
     ({ initialGameState with gameStatus := GameStatus.won } : GameState).hp ≤
       ({ initialGameState with gameStatus := GameStatus.won } : GameState).maxHp ∧
     ({ initialGameState with gameStatus := GameStatus.won } : GameState).inventory.length ≤ 8) ∧
    (processAIResponse factory0 idSupply idSupply "t"
        { initialGameState with gameStatus := GameStatus.won } emptyDelta).gameStatus =
      GameStatus.ongoing ∧
    (processAIResponse factory0 idSupply idSupply "t"
        { initialGameState with gameStatus := GameStatus.won } emptyDelta).gameStatus ≠
      ({ initialGameState with gameStatus := GameStatus.won } : GameState).gameStatus := by
  refine ⟨by decide, by decide, by decide⟩

/-- C4 (amended): reconciling an empty TurnDelta against a valid state WHOSE
gameStatus IS ongoing (hp in (0, maxHp], inventory within the cap, equipped
ids absent from the inventory) changes nothing except the appended StoryTurn:
stats, statExperience, inventory, equipped, hp, maxHp, activeEffects, npcs,
quest and gameStatus are all unchanged.  (For a terminal state the empty
delta resets gameStatus to ongoing, see the counterexample.) -/
theorem empty_delta_reconcile_noop (factory : String → InventoryItem)
    (effectId npcId : Nat → Nat) (turnId : String) (prev : GameState)
    (hstatus : prev.gameStatus = GameStatus.ongoing)
    (hhp0 : 0 < prev.hp) (hhp1 : prev.hp ≤ prev.maxHp)
    (hcap : prev.inventory.length ≤ 8)
    (hdisj : ∀ i ∈ prev.inventory, (equippedIdList prev.equipped).contains i.id = false) :
    (processAIResponse factory effectId npcId turnId prev emptyDelta).stats = prev.stats ∧
    (processAIResponse factory effectId npcId turnId prev emptyDelta).statExperience = prev.statExperience ∧
    (processAIResponse factory effectId npcId turnId prev emptyDelta).inventory = prev.inventory ∧
    (processAIResponse factory effectId npcId turnId prev emptyDelta).equipped = prev.equipped ∧
    (processAIResponse factory effectId npcId turnId prev emptyDelta).hp = prev.hp ∧
    (processAIResponse factory effectId npcId turnId prev emptyDelta).maxHp = prev.maxHp ∧
    (processAIResponse factory effectId npcId turnId prev emptyDelta).activeEffects = prev.activeEffects ∧
    (processAIResponse factory effectId npcId turnId prev emptyDelta).npcs = prev.npcs ∧
    (processAIResponse factory effectId npcId turnId prev emptyDelta).currentQuest = prev.currentQuest ∧
    (processAIResponse factory effectId npcId turnId prev emptyDelta).gameStatus = prev.gameStatus ∧
    (processAIResponse factory effectId npcId turnId prev emptyDelta).history =
      prev.history ++ [⟨turnId ++ "-ai", "", [], false, none, none, none, [], [], none, []⟩] := by
  have hfold := pushBackOldEquipped_self (equippedIdList prev.equipped) []
    ([prev.equipped.weapon, prev.equipped.armor, prev.equipped.accessory].filterMap id)
    (fun x hx => mem_equipped_contains prev.equipped x hx)
  have hfilt : prev.inventory.filter
      (fun i => !((equippedIdList prev.equipped).contains i.id)) = prev.inventory := by
    apply List.filter_eq_self.mpr
    intro a ha
    rw [hdisj a ha]
    rfl
  have hnot8 : ¬ (prev.inventory.length > 8) := by omega
  have hpos : ¬ (prev.hp ≤ 0) := by omega
  have hhpEq2 : prev.maxHp ⊓ (0 ⊔ prev.hp) = prev.hp := by
    rw [inf_eq_min, sup_eq_max, min_def, max_def]
    split_ifs <;> omega
  simp only [processAIResponse, emptyDelta, List.map_nil, List.append_nil,
    List.contains_nil, slotRemoved_nil, hfold, hfilt, Option.getD_none, Bool.not_false,
    List.filter_true, hnot8, enumerate, List.length_nil, List.range_zero,
    List.zip_nil_right, List.foldl_nil, jsOrString, add_zero, hhpEq2, hpos, hstatus,
    Bool.or_self, if_false, List.filter_cons, List.filter_nil, gt_iff_lt, List.length_pos]
  norm_num

/-- C4 witness: the amended no-op theorem applied to a fresh playing state. -/
theorem empty_delta_reconcile_noop_witness :
    (prevC4.gameStatus = GameStatus.ongoing ∧ 0 < prevC4.hp ∧ prevC4.hp ≤ prevC4.maxHp ∧
     prevC4.inventory.length ≤ 8 ∧
     (∀ i ∈ prevC4.inventory, (equippedIdList prevC4.equipped).contains i.id = false)) ∧
    ((processAIResponse factory0 idSupply idSupply "t" prevC4 emptyDelta).stats = prevC4.stats ∧
     (processAIResponse factory0 idSupply idSupply "t" prevC4 emptyDelta).statExperience = prevC4.statExperience ∧
     (processAIResponse factory0 idSupply idSupply "t" prevC4 emptyDelta).inventory = prevC4.inventory ∧
     (processAIResponse factory0 idSupply idSupply "t" prevC4 emptyDelta).equipped = prevC4.equipped ∧
     (processAIResponse factory0 idSupply idSupply "t" prevC4 emptyDelta).hp = prevC4.hp ∧
     (processAIResponse factory0 idSupply idSupply "t" prevC4 emptyDelta).maxHp = prevC4.maxHp ∧
     (processAIResponse factory0 idSupply idSupply "t" prevC4 emptyDelta).activeEffects = prevC4.activeEffects ∧
     (processAIResponse factory0 idSupply idSupply "t" prevC4 emptyDelta).npcs = prevC4.npcs ∧
     (processAIResponse factory0 idSupply idSupply "t" prevC4 emptyDelta).currentQuest = prevC4.currentQuest ∧
     (processAIResponse factory0 idSupply idSupply "t" prevC4 emptyDelta).gameStatus = prevC4.gameStatus ∧
     (processAIResponse factory0 idSupply idSupply "t" prevC4 emptyDelta).history =
       prevC4.history ++ [⟨"t" ++ "-ai", "", [], false, none, none, none, [], [], none, []⟩]) :=
  ⟨⟨by decide, by decide, by decide, by decide, by decide⟩,
   empty_delta_reconcile_noop factory0 idSupply idSupply "t" prevC4
     (by decide) (by decide) (by decide) (by decide) (by decide)⟩

/-- C5: whenever the derived max HP changes with effective Constitution, the
new maximum is 100 + 10 * floor((effectiveCON - 10) / 2) and the current HP
is rescaled to round(hp * newMax / oldMax), which already lies in
[0, newMax] (the defensive re-clamp is a no-op). -/
theorem maxhp_recompute_rescales_hp (conVal hp maxHp : Int)
    (hcon : 1 ≤ conVal) (hmax : 0 < maxHp) (hhp0 : 0 ≤ hp) (hhp1 : hp ≤ maxHp) :
    (recomputeMaxHpEffect conVal hp maxHp).2 = BASE_HP + 10 * getMod conVal ∧
    (recomputeMaxHpEffect conVal hp maxHp).1 =
      jsRound (hp * (BASE_HP + 10 * getMod conVal)) maxHp ∧
    0 ≤ (recomputeMaxHpEffect conVal hp maxHp).1 ∧
    (recomputeMaxHpEffect conVal hp maxHp).1 ≤ BASE_HP + 10 * getMod conVal := by
  have hgm : getMod conVal = (conVal - 10) / 2 := Int.fdiv_eq_ediv _ (by norm_num)
  have hmod : -5 ≤ getMod conVal := by rw [hgm]; omega
  have hBASE : BASE_HP = (100 : Int) := rfl
  have hden : (0:Int) ≤ 2 * maxHp := by omega
  have hjr : ∀ num : Int, jsRound num maxHp = (2 * num + maxHp) / (2 * maxHp) := by
    intro num
    dsimp only [jsRound]
    exact Int.fdiv_eq_ediv _ hden
  have hcomm : BASE_HP + getMod conVal * 10 = BASE_HP + 10 * getMod conVal := by ring
  dsimp only [recomputeMaxHpEffect]
  split
  · rename_i hne
    refine ⟨hcomm, ?_, ?_, ?_⟩
    · rw [mul_comm ((BASE_HP + getMod conVal * 10)) hp, hcomm]
    · rw [hjr]
      apply Int.ediv_nonneg _ hden
      have hprod : 0 ≤ (BASE_HP + getMod conVal * 10) * hp :=
        mul_nonneg (by omega) hhp0
      omega
    · rw [hjr, ← hcomm]
      have hmul : (BASE_HP + getMod conVal * 10) * hp ≤ (BASE_HP + getMod conVal * 10) * maxHp :=
        mul_le_mul_of_nonneg_left hhp1 (by omega)
      have hstep : (2 * ((BASE_HP + getMod conVal * 10) * hp) + maxHp) / (2 * maxHp) ≤
          (maxHp + (BASE_HP + getMod conVal * 10) * (2 * maxHp)) / (2 * maxHp) := by
        apply Int.ediv_le_ediv (by omega)
        ring_nf
        ring_nf at hmul
        omega
      have hsplit : (maxHp + (BASE_HP + getMod conVal * 10) * (2 * maxHp)) / (2 * maxHp) =
          maxHp / (2 * maxHp) + (BASE_HP + getMod conVal * 10) :=
        Int.add_mul_ediv_right _ _ (by omega)
      have hzero : maxHp / (2 * maxHp) = 0 :=
        Int.ediv_eq_zero_of_lt (by omega) (by omega)
      omega
  · rename_i heq
    have heq2 : maxHp = BASE_HP + getMod conVal * 10 := by
      by_contra hc
      exact heq hc
    refine ⟨by omega, ?_, hhp0, by omega⟩
    rw [hjr, ← hcomm, ← heq2]
    have h1 : 2 * (hp * maxHp) + maxHp = maxHp * (2 * hp + 1) := by ring
    have h2 : 2 * maxHp = maxHp * 2 := by ring
    rw [h1, h2, Int.mul_ediv_mul_of_pos _ _ hmax]
    omega

/-- C5 witness: base CON 10, equipping a CON+2 armor piece (effective CON 12
via calculateStats) at hp 100/100 yields maxHp 110 and hp 110. -/
theorem maxhp_recompute_rescales_hp_witness :
    (1 ≤ (calculateStats DEFAULT_STATS gearC5 [] none).CON ∧ (0:Int) < 100 ∧
     (0:Int) ≤ 100 ∧ (100:Int) ≤ 100) ∧
    ((recomputeMaxHpEffect ((calculateStats DEFAULT_STATS gearC5 [] none).CON) 100 100).2 =
        BASE_HP + 10 * getMod ((calculateStats DEFAULT_STATS gearC5 [] none).CON) ∧
     (recomputeMaxHpEffect ((calculateStats DEFAULT_STATS gearC5 [] none).CON) 100 100).1 =
        jsRound (100 * (BASE_HP + 10 * getMod ((calculateStats DEFAULT_STATS gearC5 [] none).CON))) 100 ∧
     0 ≤ (recomputeMaxHpEffect ((calculateStats DEFAULT_STATS gearC5 [] none).CON) 100 100).1 ∧
     (recomputeMaxHpEffect ((calculateStats DEFAULT_STATS gearC5 [] none).CON) 100 100).1 ≤
        BASE_HP + 10 * getMod ((calculateStats DEFAULT_STATS gearC5 [] none).CON)) ∧
    recomputeMaxHpEffect ((calculateStats DEFAULT_STATS gearC5 [] none).CON) 100 100 = (110, 110) :=
  ⟨⟨by decide, by decide, by decide, by decide⟩,
   maxhp_recompute_rescales_hp ((calculateStats DEFAULT_STATS gearC5 [] none).CON) 100 100
     (by decide) (by decide) (by decide) (by decide),
   by decide⟩

/-- C6: a successful check increments the axis experience counter; reaching
the threshold 3 resets it to 0 and raises the base stat by 1, emitting a
level-up event with newValue = oldValue + 1; a failed check changes nothing;
and two successes from experience 0 trigger no level-up. -/
theorem xp_threshold_levelup (prev : GameState) (s : StatType) :
    ((prev.statExperience.get s + 1 ≥ EXP_THRESHOLD →
        (applyRollXP prev s true).1.statExperience = prev.statExperience.set s 0 ∧
        (applyRollXP prev s true).1.stats = prev.stats.set s (prev.stats.get s + 1) ∧
        (applyRollXP prev s true).2 = some ⟨s, prev.stats.get s, prev.stats.get s + 1⟩) ∧
     (prev.statExperience.get s + 1 < EXP_THRESHOLD →
        (applyRollXP prev s true).1.statExperience =
          prev.statExperience.set s (prev.statExperience.get s + 1) ∧
        (applyRollXP prev s true).1.stats = prev.stats ∧
        (applyRollXP prev s true).2 = none)) ∧
    ((applyRollXP prev s false).1.statExperience = prev.statExperience ∧
     (applyRollXP prev s false).1.stats = prev.stats ∧
     (applyRollXP prev s false).2 = none) ∧
    (prev.statExperience.get s = 0 →
        (applyRollXP prev s true).2 = none ∧
        (applyRollXP (applyRollXP prev s true).1 s true).2 = none ∧
        (applyRollXP (applyRollXP prev s true).1 s true).1.statExperience.get s = 2) := by
  have hsucc : ∀ p : GameState, p.statExperience.get s + 1 < EXP_THRESHOLD →
      (applyRollXP p s true).1.statExperience = p.statExperience.set s (p.statExperience.get s + 1) ∧
      (applyRollXP p s true).1.stats = p.stats ∧ (applyRollXP p s true).2 = none := by
    intro p hp
    have hneg : ¬ (p.statExperience.get s + 1 ≥ EXP_THRESHOLD) := by omega
    simp [applyRollXP, hneg]
  refine ⟨⟨?_, hsucc prev⟩, ⟨rfl, rfl, rfl⟩, ?_⟩
  · intro h
    simp [applyRollXP, h]
  · intro h
    have h1 : prev.statExperience.get s + 1 < EXP_THRESHOLD := by
      rw [h]
      decide
    obtain ⟨he1, _, hev1⟩ := hsucc prev h1
    have hget1 : (applyRollXP prev s true).1.statExperience.get s =
        prev.statExperience.get s + 1 := by
      rw [he1]
      exact StatMap.get_set_self _ _ _
    have h2 : (applyRollXP prev s true).1.statExperience.get s + 1 < EXP_THRESHOLD := by
      rw [hget1, h]
      decide
    obtain ⟨he2, _, hev2⟩ := hsucc _ h2
    refine ⟨hev1, hev2, ?_⟩
    rw [he2, StatMap.get_set_self, hget1, h]
    decide

/-- C6 witness: at experience 2 a success levels STR from 10 to 11 and
resets the counter; from experience 0 two successes produce no event and
leave the counter at 2. -/
theorem xp_threshold_levelup_witness :
    (prevC6.statExperience.get StatType.STR + 1 ≥ EXP_THRESHOLD) ∧
    ((applyRollXP prevC6 StatType.STR true).1.statExperience =
        prevC6.statExperience.set StatType.STR 0 ∧
     (applyRollXP prevC6 StatType.STR true).1.stats =
        prevC6.stats.set StatType.STR (prevC6.stats.get StatType.STR + 1) ∧
     (applyRollXP prevC6 StatType.STR true).2 =
        some ⟨StatType.STR, prevC6.stats.get StatType.STR, prevC6.stats.get StatType.STR + 1⟩) ∧
    (initialGameState.statExperience.get StatType.STR = 0) ∧
    ((applyRollXP initialGameState StatType.STR true).2 = none ∧
     (applyRollXP (applyRollXP initialGameState StatType.STR true).1 StatType.STR true).2 = none ∧
     (applyRollXP (applyRollXP initialGameState StatType.STR true).1 StatType.STR
        true).1.statExperience.get StatType.STR = 2) :=
  ⟨by decide,
   (xp_threshold_levelup prevC6 StatType.STR).1.1 (by decide),
   by decide,
   (xp_threshold_levelup initialGameState StatType.STR).2.2 (by decide)⟩

/-- C7: evaluation of the normalizer at the failing input.  The claim says
parseTextResponse never raises; but an ACTION_RESULT section containing a
line without a colon whose text is SUCCESS makes the source call
toLowerCase() on an undefined destructured value, raising a TypeError
(modelled as Except.error). -/
theorem parse_text_response_success_line_raises :
    parseTextResponse idSupply "### ACTION_RESULT\nSUCCESS" =
      Except.error "TypeError: val is undefined" := by rfl

/-- C8: an UPDATES line whose entity name is the literal NONE
(case-insensitive, after the source's own trimming and pipe-splitting) for
ITEM_REMOVE, EQUIP, UNEQUIP, ITEM_ADD or EFFECT_ADD leaves the normalized
delta unchanged; in particular the input with the line ITEM_REMOVE: NONE
produces zero entries in inventory_removed. -/
theorem parser_none_entity_lines_skipped :
    (∀ (effectId : Nat → Nat) (r : ParsedResponse) (name : List Char),
      (upperString (jsTrim (String.mk name)) = "NONE" →
        applyUpdateClean effectId r ("ITEM_REMOVE:".data ++ name) = r ∧
        applyUpdateClean effectId r ("EQUIP:".data ++ name) = r ∧
        applyUpdateClean effectId r ("UNEQUIP:".data ++ name) = r) ∧
      (upperString (((splitOnSep '|' name).map jsTrim).headD "") = "NONE" →
        applyUpdateClean effectId r ("ITEM_ADD:".data ++ name) = r ∧
        applyUpdateClean effectId r ("EFFECT_ADD:".data ++ name) = r)) ∧
    ((parseTextResponse idSupply "### UPDATES\nITEM_REMOVE: NONE").toOption.map
        (fun r => r.inventory_removed) = some []) := by
  refine ⟨?_, by decide⟩
  intro effectId r name
  constructor
  · intro h
    refine ⟨?_, ?_, ?_⟩ <;> simp [applyUpdateClean, dropPrefix?, h]
  · intro h
    simp only [List.headD_eq_head?, List.head?_map] at h
    refine ⟨?_, ?_⟩ <;> simp [applyUpdateClean, dropPrefix?, h]

/-- C8 witness: the skip theorem applied to the line ITEM_REMOVE: with the
name " NONE ". -/
theorem parser_none_entity_lines_skipped_witness :
    upperString (jsTrim (String.mk " NONE ".data)) = "NONE" ∧
    applyUpdateClean idSupply emptyParsed ("ITEM_REMOVE:".data ++ " NONE ".data) = emptyParsed :=
  ⟨by decide,
   ((parser_none_entity_lines_skipped.1 idSupply emptyParsed " NONE ".data).1 (by decide)).1⟩

/-- C9 counterexample: the claim fails as stated.  From a fresh playing
state, a delta with game_status won produces a terminal state, yet applying
a further delta whose game_status is ongoing reverts gameStatus to ongoing:
the reconciler never consults the previous status. -/
theorem game_status_monotonic_cex :
    (processAIResponse factory0 idSupply idSupply "t" prevC4 aiWon).gameStatus =
      GameStatus.won ∧
    (processAIResponse factory0 idSupply idSupply "t"
        (processAIResponse factory0 idSupply idSupply "t" prevC4 aiWon) aiOngoing).gameStatus =
      GameStatus.ongoing := by
  refine ⟨by decide, by decide⟩

/-- C9 (amended): the reconciler computes the next gameStatus from the delta
alone - the delta's game_status (default ongoing), overridden to lost when
the clamped hp reaches 0 - without consulting the previous gameStatus; it is
the accompanying phase transition to game_over (after which no further turn
is issued) that keeps a terminal status terminal, not the reconciler. -/
theorem game_status_set_from_delta (factory : String → InventoryItem)
    (effectId npcId : Nat → Nat) (turnId : String) (prev : GameState) (ai : AIStoryResponse) :
    (processAIResponse factory effectId npcId turnId prev ai).gameStatus =
      (if min prev.maxHp (max 0 (prev.hp + ai.hp_change.getD 0)) ≤ 0 then GameStatus.lost
       else ai.game_status.getD GameStatus.ongoing) ∧
    (processAIResponse factory effectId npcId turnId prev ai).phase =
      (if (processAIResponse factory effectId npcId turnId prev ai).gameStatus = GameStatus.ongoing
       then GamePhase.playing else GamePhase.game_over) := by
  dsimp only [processAIResponse]
  exact ⟨rfl, rfl⟩

/-- C10: with the heroic budget exhausted or a blocking status effect
active, submitting a custom action leaves the state unchanged and issues
nothing: no turn, no history entry, no counter decrement. -/
theorem heroic_action_guard_noop (prev : GameState) (text : String) (itemId : Option Nat)
    (roll : Int)
    (h : prev.customChoicesRemaining ≤ 0 ∨ isHeroicBlocked prev = true) :
    handleCustomChoiceSubmit prev text itemId roll = (prev, none) := by
  dsimp only [handleCustomChoiceSubmit]
  rcases h with h | h
  · simp [h]
  · simp [isHeroicBlocked] at h
    simp [isHeroicBlocked, h]

/-- C10 witness: a state with zero remaining heroic actions rejects a
submission without any change. -/
theorem heroic_action_guard_noop_witness :
    (prevC10.customChoicesRemaining ≤ 0 ∨ isHeroicBlocked prevC10 = true) ∧
    handleCustomChoiceSubmit prevC10 "I leap the chasm" none 17 = (prevC10, none) :=
  ⟨Or.inl (by decide),
   heroic_action_guard_noop prevC10 "I leap the chasm" none 17 (Or.inl (by decide))⟩
